import Mathlib

/-!
Shallow embedding of `lykmapipo/scheduler` (a redis-backed recurring-job
scheduler for node.js) and proofs about its specification claims.

Modules embedded:
  * `src/scheduler` (registry, validation, invoke, isAlreadyScheduled,
    scheduleNextRun)
  * `src/timers` (nextCronRunTimeFor, nextHumanRunTimeFor, nextRunTimeFor)
  * `src/redis` (key naming, client singletons, quit)

JavaScript machine integers / Dates are modelled as `Int` epoch milliseconds;
JS `undefined`/`null` fields as `Option`; error-first callbacks as
`Except Error _`; the mutable module-level singletons and registry as explicit
state passing.
-/

namespace Scheduler

/-- Error value: only the message is observable in the claims. -/
structure Error where
  message : String
deriving DecidableEq, Repr

/-- Auxiliary JS object payloads (`data`, invocation results) modelled as
string association lists. -/
def JsObject : Type := List (String × String)

instance : DecidableEq JsObject := by
  unfold JsObject
  infer_instance

/-- Empty JS object `{}`. -/
def emptyObject : JsObject := []

instance {α β : Type} [DecidableEq α] [DecidableEq β] :
    DecidableEq (Except α β)
  | .error a, .error b =>
    if h : a = b then .isTrue (by rw [h])
    else .isFalse (by intro hc; cases hc; exact h rfl)
  | .error _, .ok _ => .isFalse (by intro hc; cases hc)
  | .ok _, .error _ => .isFalse (by intro hc; cases hc)
  | .ok a, .ok b =>
    if h : a = b then .isTrue (by rw [h])
    else .isFalse (by intro hc; cases hc; exact h rfl)

/-- One invocation of an error-first completion callback `done`:
`done(error)` or `done(null, result)`. -/
def DoneCall : Type := Except Error JsObject

instance : DecidableEq DoneCall := by
  unfold DoneCall
  infer_instance

/-- Observable behaviour of one call to a user-supplied `perform(data, done)`:
it makes zero or more calls to `done` and then either returns normally or
throws an error synchronously. -/
inductive PerformOutcome where
  | ok (calls : List DoneCall)
  | threw (calls : List DoneCall) (e : Error)

/-- The `perform` field of a schedule definition as a JS value: absent,
present but not a function (e.g. a string), or a function whose behaviour
depends on the `data` argument it receives. -/
inductive Perform where
  | missing
  | notFn (v : String)
  | fn (run : JsObject → PerformOutcome)

/-- Lodash `isFunction` on the modelled `perform` value. -/
def Perform.isFn : Perform → Bool
  | .fn _ => true
  | _ => false

/-- Schedule definition object (`{name, interval, perform, data}`); `Option`
fields model JS properties that may be absent/undefined. -/
structure ScheduleDef where
  name : Option String
  interval : Option String
  perform : Perform
  data : Option JsObject

/-- Lodash `isEmpty` on a string-valued JS property: true when the property is
absent/undefined or the empty string. -/
def isEmptyField : Option String → Bool
  | none => true
  | some s => s = ""

/-- Embeds `isValidSchedule` (src/scheduler): `!optns → false`, otherwise
`!isEmpty(optns.name) && !isEmpty(optns.interval) && isFunction(optns.perform)`.
`none` models both `null` and `undefined` inputs (and non-object inputs such
as `' '`, whose properties are all undefined, behave as a definition with all
fields absent). -/
def isValidSchedule : Option ScheduleDef → Bool
  | none => false
  | some optns =>
    !(isEmptyField optns.name) && !(isEmptyField optns.interval) &&
      optns.perform.isFn

/-- The in-process registry: JS object mapping schedule name to the stored
definition. -/
def Registry : Type := List (String × ScheduleDef)

/-- JS property read `schedules[name]`. -/
def registryGet (schedules : Registry) (name : String) : Option ScheduleDef :=
  match schedules with
  | [] => none
  | (k, v) :: rest => if k = name then some v else registryGet rest name

/-- JS property write `schedules[name] = value`. -/
def registrySet (schedules : Registry) (name : String) (value : ScheduleDef) :
    Registry :=
  (name, value) :: (schedules.filter (fun p => p.1 ≠ name))

/-- Embeds `defineSchedule` (src/scheduler): return the registry unchanged on
an invalid definition; return it unchanged when the name already exists
(`!!schedules[optns.name]` — stored definitions are objects, hence truthy);
otherwise store the definition (`mergeObjects(optns)` copies the fields, so
the stored value is the definition itself) under its name. The registry is
threaded explicitly in place of the mutable module variable `schedules`. -/
def defineSchedule (schedules : Registry) (optns : Option ScheduleDef) :
    Registry :=
  if isValidSchedule optns = false then
    schedules
  else
    match optns with
    | none => schedules
    | some d =>
      -- validity guarantees d.name = some name with name nonempty
      let key := d.name.getD ""
      if (registryGet schedules key).isSome then
        schedules
      else
        registrySet schedules key d

/-- Output of one `invokeSchedule` call: the sequence of calls made to `done`,
and the store commands issued (the source function touches no store in any
branch, which the model makes explicit). -/
structure InvokeOutput where
  doneCalls : List DoneCall
  storeOps : List String

/-- Embeds `invokeSchedule` (src/scheduler): on an invalid definition call
`done(new Error('Invalid schedule definition'))`; otherwise run
`perform(data ?? {}, done)` inside try/catch, forwarding a synchronous throw
to `done(error)` after whatever calls `perform` itself already made to `done`.
The `match` fallbacks for `none`/non-function `perform` are unreachable: the
validity guard has already returned in those cases. -/
def invokeSchedule (schedule : Option ScheduleDef) : InvokeOutput :=
  if isValidSchedule schedule = false then
    { doneCalls := [.error ⟨"Invalid schedule definition"⟩], storeOps := [] }
  else
    match schedule with
    | none => { doneCalls := [], storeOps := [] }
    | some s =>
      match s.perform with
      | .fn run =>
        match run (s.data.getD emptyObject) with
        | .ok calls => { doneCalls := calls, storeOps := [] }
        | .threw calls e =>
          { doneCalls := calls ++ [.error e], storeOps := [] }
      | _ => { doneCalls := [], storeOps := [] }

/-- Char-level worker for `splitOnSpace`; `acc` holds the current token's
characters in reverse. -/
def splitOnSpaceAux : List Char → List Char → List String
  | [], acc => [String.mk acc.reverse]
  | c :: rest, acc =>
    if c = ' ' then String.mk acc.reverse :: splitOnSpaceAux rest []
    else splitOnSpaceAux rest (c :: acc)

/-- Splits a string at single spaces (the JS `String.split(' ')` behaviour the
pattern grammars rely on), keeping empty tokens. Implemented over the
character list so that proofs can evaluate it. -/
def splitOnSpace (s : String) : List String :=
  splitOnSpaceAux s.data []

/-- Decimal digit value of a character, if any. -/
def charDigit? (c : Char) : Option Nat :=
  let n := c.toNat
  if 48 ≤ n ∧ n ≤ 57 then some (n - 48) else none

/-- Char-level worker for `parseNat?`. -/
def parseNatAux : List Char → Nat → Option Nat
  | [], acc => some acc
  | c :: rest, acc =>
    match charDigit? c with
    | some d => parseNatAux rest (acc * 10 + d)
    | none => none

/-- Parses a non-empty all-digit string as a natural number (the fragment of
JS numeric parsing the pattern grammars use), evaluable in proofs. -/
def parseNat? (s : String) : Option Nat :=
  match s.data with
  | [] => none
  | cs => parseNatAux cs 0

/-- Cron field token: `*`, `*/n`, or a literal in-range value. Models the
subset of the external `cron` library grammar this repository exercises
(`* * * * * *`, `*/2 * * * * *`, literal fields). -/
inductive CronField where
  | star
  | step (n : Nat)
  | val (n : Nat)
deriving DecidableEq, Repr

/-- Parsed cron time pattern. Only the second/minute/hour fields constrain the
next instant in the modelled sub-grammar: the date fields must be `*`. -/
structure CronPattern where
  sec : CronField
  min : CronField
  hour : CronField
deriving DecidableEq, Repr

/-- Parse one cron field token, rejecting out-of-range literals and zero
steps. -/
def parseCronField (hi : Nat) (tok : String) : Option CronField :=
  match tok.data with
  | ['*'] => some .star
  | '*' :: '/' :: rest =>
    match parseNatAux rest 0 with
    | some n => if 1 ≤ n ∧ rest ≠ [] then some (.step n) else none
    | none => none
  | _ =>
    match parseNat? tok with
    | some v => if v ≤ hi then some (.val v) else none
    | none => none

/-- Models `new CronTime(pattern)` of the external `cron` library on its
5/6-field grammar: a 6-field pattern is `sec min hour dom mon dow`, a 5-field
pattern defaults seconds to `0`; anything else throws (`none`). Date fields
other than `*` are outside the modelled sub-grammar. -/
def parseCron (pattern : String) : Option CronPattern :=
  match splitOnSpace pattern with
  | [s, m, h, dom, mon, dow] =>
    if dom = "*" && mon = "*" && dow = "*" then
      match parseCronField 59 s, parseCronField 59 m, parseCronField 23 h with
      | some fs, some fm, some fh => some ⟨fs, fm, fh⟩
      | _, _, _ => none
    else none
  | [m, h, dom, mon, dow] =>
    if dom = "*" && mon = "*" && dow = "*" then
      match parseCronField 59 m, parseCronField 23 h with
      | some fm, some fh => some ⟨.val 0, fm, fh⟩
      | _, _ => none
    else none
  | _ => none

/-- Whether a field value (second/minute/hour component) matches a cron
field. -/
def fieldMatches : CronField → Int → Bool
  | .star, _ => true
  | .step n, v => v % (n : Int) == 0
  | .val n, v => v == (n : Int)

/-- Whether epoch second `s` matches the pattern. -/
def cronMatches (c : CronPattern) (s : Int) : Bool :=
  fieldMatches c.sec (s % 60) && fieldMatches c.min (s / 60 % 60) &&
    fieldMatches c.hour (s / 3600 % 24)

/-- Bounded scan for the first matching epoch second at or after `s`. -/
def cronSearch (c : CronPattern) : Nat → Int → Option Int
  | 0, _ => none
  | fuel + 1, s => if cronMatches c s then some s else cronSearch c fuel (s + 1)

/-- Models `CronTime._getNextDateFrom`: the earliest pattern-matching second
boundary strictly after `fromMs`, in epoch milliseconds. Two days of fuel
covers every satisfiable second/minute/hour combination; exhaustion models the
library giving up (a throw). -/
def cronNextAfter (c : CronPattern) (fromMs : Int) : Option Int :=
  (cronSearch c 172800 (fromMs / 1000 + 1)).map (fun s => s * 1000)

/-- Embeds `nextCronRunTimeFor` (src/timers). `none` models a synchronous
throw (unparseable pattern or no match). The ensure-future recursion
`nextCronRunTimeFor(pattern, now, timezone)` is inlined as
`cronNextAfter cronTime now`: that call's own result is strictly after `now`,
so its ensure-future check passes and it returns its `cronNextAfter` directly.
Timezone handling is dropped: the model works in epoch milliseconds, which
`moment.tz` does not alter. -/
def nextCronRunTimeFor (pattern : String) (lastRunAt now : Int) : Option Int :=
  match parseCron pattern with
  | none => none
  | some cronTime =>
    match cronNextAfter cronTime lastRunAt with
    | none => none
    | some nextRun =>
      if nextRun - now ≤ 0 then cronNextAfter cronTime now
      else some nextRun

/-- Milliseconds per supported human-interval unit word. -/
def unitMillis : String → Option Int
  | "second" | "seconds" => some 1000
  | "minute" | "minutes" => some 60000
  | "hour" | "hours" => some 3600000
  | "day" | "days" => some 86400000
  | "week" | "weeks" => some 604800000
  | _ => none

/-- Models the external `human-interval` parser on the numeric phrase grammar
`"<N> <unit>"` with second/minute/hour/day/week units (`none` models `NaN`). -/
def humanInterval (pattern : String) : Option Int :=
  match splitOnSpace pattern with
  | [n, u] =>
    match parseNat? n, unitMillis u with
    | some k, some m => some ((k : Int) * m)
    | _, _ => none
  | _ => none

/-- Embeds `nextHumanRunTimeFor` (src/timers): a falsy `humanInterval` result
(`NaN` or `0`) throws `Invalid Human Interval Pattern` (modelled `none`);
otherwise `nextRun = lastRunAt + duration`, corrected by the ensure-future
recursion when `nextRun - now ≤ 0`. That recursion,
`nextHumanRunTimeFor(pattern, now, timezone)`, is inlined as
`some (now + duration)`: with a strictly positive duration its own check
passes immediately. Timezone handling is dropped as in the cron case. -/
def nextHumanRunTimeFor (pattern : String) (lastRunAt now : Int) :
    Option Int :=
  match humanInterval pattern with
  | none => none
  | some humanTime =>
    if humanTime = 0 then none
    else
      let nextRun := lastRunAt + humanTime
      if nextRun - now ≤ 0 then some (now + humanTime)
      else some nextRun

/-- Embeds `nextRunTimeFor` (src/timers): `tryCatch` the cron computation
(`none` models the caught throw), fall back to the human-interval computation
on failure, and surface `undefined` (`none`) when both grammars fail. -/
def nextRunTimeFor (pattern : String) (lastRunAt now : Int) : Option Int :=
  match nextCronRunTimeFor pattern lastRunAt now with
  | some nextRun => some nextRun
  | none => nextHumanRunTimeFor pattern lastRunAt now

/-- Embeds `scheduleExpiryKeyFor` (src/redis) at the default configuration
(client key namespace `r`, separator `:`, schedule namespace `schedules`):
`keyFor(...compact([schedulePart, name]))` joins them into
`r:schedules:<name>`. -/
def scheduleExpiryKeyFor (name : String) : String :=
  "r:schedules:" ++ name

/-- State of one store key: its value and optional absolute expiry instant
(epoch milliseconds). -/
structure KeyState where
  value : String
  expireAt : Option Int
deriving DecidableEq, Repr

/-- The shared key-value store: key to key-state mapping. -/
def Store : Type := List (String × KeyState)

/-- Store lookup honouring lazy expiry: a key whose expiry has elapsed is
absent. -/
def storeGet (store : Store) (key : String) : Option KeyState :=
  match store with
  | [] => none
  | (k, v) :: rest => if k = key then some v else storeGet rest key

/-- Redis `PTTL key` observed at absolute instant `now`: `-2` when the key is
absent or its expiry has already elapsed (an expired key is gone), `-1` when
the key exists without expiry, otherwise the strictly positive remaining
milliseconds. -/
def pttlAt (store : Store) (key : String) (now : Int) : Int :=
  match storeGet store key with
  | none => -2
  | some ks =>
    match ks.expireAt with
    | none => -1
    | some e => if e - now > 0 then e - now else -2

/-- Embeds the `pttl` reply callback of `isAlreadyScheduled` (src/scheduler):
`if (error) return done(error)`, else
`done(null, !!(ttl && ttl > 0))` — a falsy (zero) `ttl` short-circuits to
`false`, otherwise the sign test decides. -/
def isAlreadyScheduledResult (reply : Except Error Int) : Except Error Bool :=
  match reply with
  | .error e => .error e
  | .ok ttl => .ok ((ttl != 0) && decide (ttl > 0))

/-- `isAlreadyScheduled` run against a store whose `PTTL` command succeeds:
the schedule's expiry key is read with `PTTL` and the reply callback decides.
-/
def isAlreadyScheduled (store : Store) (now : Int) (name : String) :
    Except Error Bool :=
  isAlreadyScheduledResult (.ok (pttlAt store (scheduleExpiryKeyFor name) now))

/-- The store command `SET key value PX ttl NX` issued by `scheduleNextRun`. -/
structure SetPxNxCommand where
  key : String
  value : String
  px : Int
  nx : Bool
deriving DecidableEq, Repr

/-- What one `scheduleNextRun` call does: the conditional-set command it
issues, and the completion it delivers (`done(error)` or
`done(null, {nextRunAt})`, the latter carrying the computed instant). -/
structure NextRunOutput where
  command : SetPxNxCommand
  result : Except Error Int
deriving DecidableEq, Repr

/-- Embeds `scheduleNextRun` (src/scheduler): `lastRunAt` defaults to `now`
(`new Date()` captured on entry); `nextRunAt` comes from
`nextRunTimeFor(interval, lastRunAt, timezone)`; the command sets the schedule
expiry key to itself with `PX nextRunAt - now` and `NX`; the command callback
forwards a store error and otherwise reports `{nextRunAt}`. `storeReply`
injects the store command outcome. When `nextRunTimeFor` resolves nothing the
source crashes on `nextRunAt.getTime()` before issuing any command (modelled
as `none`). -/
def scheduleNextRun (name interval : String) (lastRunAt : Option Int)
    (now : Int) (storeReply : Option Error) : Option NextRunOutput :=
  match nextRunTimeFor interval (lastRunAt.getD now) now with
  | none => none
  | some nextRunAt =>
    let scheduleExpiryKey := scheduleExpiryKeyFor name
    some
      { command :=
          { key := scheduleExpiryKey
            value := scheduleExpiryKey
            px := nextRunAt - now
            nx := true }
        result :=
          match storeReply with
          | some e => .error e
          | none => .ok nextRunAt }

/-- A redis client handle; only identity is observable. -/
structure Client where
  uuid : Nat
deriving DecidableEq, Repr

/-- Result of one `createScheduler`/`createListener` call: whether
`createRedisClient` ran, the client returned to the caller, and the new value
of the module-level singleton. -/
structure CreateResult where
  created : Bool
  returned : Client
  singleton : Option Client
deriving DecidableEq, Repr

/-- Embeds `createScheduler` (src/redis). `state` is the module-level
`scheduler` singleton, `recreate` the option flag, `fresh` the client a
`createRedisClient(options)` call would construct. When
`recreate || !redisClient`, a client is created and returned, and the
singleton is updated by `scheduler = scheduler || redisClient` — which keeps
an already-present singleton; otherwise the existing client is returned
unchanged (that branch's `getD` default is unreachable: the branch requires
`state.isSome`). -/
def createScheduler (state : Option Client) (recreate : Bool)
    (fresh : Client) : CreateResult :=
  if recreate || state.isNone then
    { created := true, returned := fresh, singleton := some (state.getD fresh) }
  else
    { created := false, returned := state.getD fresh, singleton := state }

/-- Embeds `createListener` (src/redis): same body as `createScheduler` over
the module-level `listener` singleton. -/
def createListener (state : Option Client) (recreate : Bool)
    (fresh : Client) : CreateResult :=
  if recreate || state.isNone then
    { created := true, returned := fresh, singleton := some (state.getD fresh) }
  else
    { created := false, returned := state.getD fresh, singleton := state }

/-- The two module-level client singletons of src/redis. -/
structure ClientsState where
  scheduler : Option Client
  listener : Option Client
deriving DecidableEq, Repr

/-- Output of `quit`: the clients actually closed, the singleton state after
the call, and the `scheduler`/`listener` properties of the returned object. -/
structure QuitOutput where
  closed : List Client
  state : ClientsState
  returnedScheduler : Option Client
  returnedListener : Option Client
deriving DecidableEq, Repr

/-- Embeds `quit` (src/redis): `quitRedisClient` is applied to each of
`[scheduler, listener]` (it ignores absent clients), both module singletons
are reset to `null`, and the returned object
`{ ...redisClients, scheduler, listener }` is built from the
**already reset** variables. The spread of the external `quitRedisClients()`
result contributes no `scheduler`/`listener` properties (both are overridden
by the local shorthands) and is not modelled. -/
def quit (st : ClientsState) : QuitOutput :=
  let clients := [st.scheduler, st.listener]
  let schedulerReset : Option Client := none
  let listenerReset : Option Client := none
  { closed := clients.filterMap id
    state := { scheduler := schedulerReset, listener := listenerReset }
    returnedScheduler := schedulerReset
    returnedListener := listenerReset }

/-! Helper lemmas and sample values shared by the claim theorems. -/

/-- Reading back the key just written returns the written definition. -/
lemma registryGet_registrySet_self (r : Registry) (n : String)
    (v : ScheduleDef) : registryGet (registrySet r n v) n = some v := by
  unfold registryGet registrySet
  simp

/-- A sample handler that completes successfully with `{}`. -/
def sampleRunOk : JsObject → PerformOutcome :=
  fun _ => .ok [.ok emptyObject]

/-- A second, distinct sample handler: completes with an error. -/
def sampleRunErr : JsObject → PerformOutcome :=
  fun _ => .threw [] ⟨"Failed"⟩

/-- Sample definition `{name: "x", interval: "1 second", perform: f1}`. -/
def sampleDef1 : ScheduleDef :=
  ⟨some "x", some "1 second", .fn sampleRunOk, none⟩

/-- Sample definition `{name: "x", interval: "5 seconds", perform: f2}`. -/
def sampleDef2 : ScheduleDef :=
  ⟨some "x", some "5 seconds", .fn sampleRunErr, none⟩

/-- C7: `isValidSchedule` accepts exactly the objects whose `name` and
`interval` are non-empty and whose `perform` is a function; dropping any one
of the three fields, replacing `perform` by a string, or passing
`null`/`undefined` all yield `false`. -/
theorem isValidSchedule_fields (n i : String)
    (run : JsObject → PerformOutcome) (d0 : Option JsObject) (sv : String)
    (hn : n ≠ "") (hi : i ≠ "") :
    isValidSchedule (some ⟨some n, some i, .fn run, d0⟩) = true ∧
    isValidSchedule (some ⟨none, some i, .fn run, d0⟩) = false ∧
    isValidSchedule (some ⟨some n, none, .fn run, d0⟩) = false ∧
    isValidSchedule (some ⟨some n, some i, .missing, d0⟩) = false ∧
    isValidSchedule (some ⟨some n, some i, .notFn sv, d0⟩) = false ∧
    isValidSchedule none = false := by
  refine ⟨?_, ?_, ?_, ?_, ?_, rfl⟩ <;>
    simp [isValidSchedule, isEmptyField, Perform.isFn, hn, hi]

/-- C7 witness at `{name: "sendEmail", interval: "2 seconds"}`. -/
theorem isValidSchedule_fields_witness :
    isValidSchedule (some ⟨some "sendEmail", some "2 seconds",
      .fn sampleRunOk, none⟩) = true ∧
    isValidSchedule (some ⟨some "sendEmail", some "2 seconds",
      .notFn "perform", none⟩) = false ∧
    isValidSchedule none = false := by
  have h := isValidSchedule_fields "sendEmail" "2 seconds" sampleRunOk none
    "perform" (by decide) (by decide)
  exact ⟨h.1, h.2.2.2.2.1, h.2.2.2.2.2⟩

/-- An invalid definition leaves the registry unchanged. -/
lemma defineSchedule_invalid (r : Registry) (o : Option ScheduleDef)
    (h : isValidSchedule o = false) : defineSchedule r o = r := by
  simp [defineSchedule, h]

/-- A definition whose name is already registered leaves the registry
unchanged, valid or not. -/
lemma defineSchedule_present (r : Registry) (d : ScheduleDef) (n : String)
    (hname : d.name = some n) (hmem : (registryGet r n).isSome = true) :
    defineSchedule r (some d) = r := by
  unfold defineSchedule
  by_cases hv : isValidSchedule (some d) = false
  · rw [if_pos hv]
  · rw [if_neg hv]
    simp only [hname, Option.getD_some]
    rw [if_pos hmem]

/-- A valid definition under a fresh name is stored. -/
lemma defineSchedule_fresh (r : Registry) (d : ScheduleDef) (n : String)
    (hv : isValidSchedule (some d) = true) (hname : d.name = some n)
    (hfresh : registryGet r n = none) :
    defineSchedule r (some d) = registrySet r n d := by
  unfold defineSchedule
  rw [if_neg (by simp [hv])]
  simp only [hname, Option.getD_some, hfresh]
  rw [if_neg (by simp)]

/-- C6: registration is first-write-wins: an invalid definition leaves the
registry unchanged (and throws nothing — the function is total and returns
the current registry), a definition whose name is already registered leaves
the registry unchanged, and after registering `d1` under a fresh name a second
registration `d2` under the same name is a no-op, so the registry still holds
`d1` (its original interval and handler). -/
theorem defineSchedule_first_write_wins (r : Registry)
    (d1 d2 : ScheduleDef) (n : String) (o : Option ScheduleDef) :
    (isValidSchedule o = false → defineSchedule r o = r) ∧
    (d1.name = some n → (registryGet r n).isSome = true →
      defineSchedule r (some d1) = r) ∧
    (isValidSchedule (some d1) = true → d1.name = some n →
      d2.name = some n → registryGet r n = none →
      defineSchedule (defineSchedule r (some d1)) (some d2) =
          defineSchedule r (some d1) ∧
        registryGet (defineSchedule (defineSchedule r (some d1)) (some d2))
          n = some d1) := by
  refine ⟨defineSchedule_invalid r o, defineSchedule_present r d1 n, ?_⟩
  intro hv hn1 hn2 hfresh
  have hstep := defineSchedule_fresh r d1 n hv hn1 hfresh
  have hget : registryGet (defineSchedule r (some d1)) n = some d1 := by
    rw [hstep]
    exact registryGet_registrySet_self r n d1
  have hnoop := defineSchedule_present (defineSchedule r (some d1)) d2 n hn2
    (by rw [hget]; rfl)
  exact ⟨hnoop, by rw [hnoop, hget]⟩

/-- C6 witness: registering `{x, "1 second", f1}` then `{x, "5 seconds", f2}`
into the empty registry keeps `f1`/`"1 second"`, and an invalid definition is
a no-op. -/
theorem defineSchedule_first_write_wins_witness :
    defineSchedule (defineSchedule [] (some sampleDef1)) (some sampleDef2) =
        defineSchedule [] (some sampleDef1) ∧
      registryGet (defineSchedule (defineSchedule [] (some sampleDef1))
        (some sampleDef2)) "x" = some sampleDef1 ∧
      defineSchedule [] none = [] := by
  have h := defineSchedule_first_write_wins [] sampleDef1 sampleDef2 "x" none
  have h3 := h.2.2 rfl rfl rfl rfl
  exact ⟨h3.1, h3.2, h.1 rfl⟩

/-- For a valid definition, `invokeSchedule` is determined by running the
handler on `data ?? {}`: callback calls pass through, a synchronous throw
appends `done(error)`. -/
lemma invokeSchedule_valid (s : ScheduleDef) (run : JsObject → PerformOutcome)
    (hv : isValidSchedule (some s) = true) (hp : s.perform = .fn run) :
    invokeSchedule (some s) =
      match run (s.data.getD emptyObject) with
      | .ok calls => { doneCalls := calls, storeOps := [] }
      | .threw calls e =>
        { doneCalls := calls ++ [.error e], storeOps := [] } := by
  obtain ⟨nm, iv, pf, dt⟩ := s
  have hp' : pf = Perform.fn run := hp
  subst hp'
  unfold invokeSchedule
  rw [if_neg (by simp [hv])]

/-- C3: `invokeSchedule` on an invalid definition calls `done` once with
`Error('Invalid schedule definition')` and issues no store command; on a valid
definition it runs `perform(data ?? {}, done)` so that a synchronous throw is
delivered to `done` as that exact error, a callback with an error delivers
that exact error, and a callback with `(null, result)` delivers
`(null, result)`. -/
theorem invokeSchedule_contract (o : Option ScheduleDef) (s : ScheduleDef)
    (run : JsObject → PerformOutcome) (e : Error) (res : JsObject) :
    (isValidSchedule o = false →
      invokeSchedule o =
        { doneCalls := [.error ⟨"Invalid schedule definition"⟩]
          storeOps := [] }) ∧
    (isValidSchedule (some s) = true → s.perform = .fn run →
      (run (s.data.getD emptyObject) = .threw [] e →
        (invokeSchedule (some s)).doneCalls = [.error e]) ∧
      (run (s.data.getD emptyObject) = .ok [.error e] →
        (invokeSchedule (some s)).doneCalls = [.error e]) ∧
      (run (s.data.getD emptyObject) = .ok [.ok res] →
        (invokeSchedule (some s)).doneCalls = [.ok res])) := by
  constructor
  · intro hinv
    unfold invokeSchedule
    rw [if_pos hinv]
  · intro hv hp
    refine ⟨?_, ?_, ?_⟩ <;> intro hrun <;>
      (rw [invokeSchedule_valid s run hv hp, hrun]; try rfl)

/-- C3 witness: at a concrete valid definition, a throwing handler delivers
`Failed`, an error-calling handler delivers `Failed`, a succeeding handler
delivers `(null, {})`, and the invalid `{}` delivers the invalid-definition
error with no store traffic. -/
theorem invokeSchedule_contract_witness :
    (invokeSchedule (some ⟨some "sendEmail", some "2 seconds",
      .fn sampleRunErr, none⟩)).doneCalls = [.error ⟨"Failed"⟩] ∧
    (invokeSchedule (some ⟨some "sendEmail", some "2 seconds",
      .fn sampleRunOk, none⟩)).doneCalls = [.ok emptyObject] ∧
    invokeSchedule (some ⟨none, none, .missing, none⟩) =
      { doneCalls := [.error ⟨"Invalid schedule definition"⟩]
        storeOps := [] } := by
  refine ⟨?_, ?_, ?_⟩
  · exact (invokeSchedule_contract (some ⟨some "sendEmail", some "2 seconds",
      .fn sampleRunErr, none⟩) ⟨some "sendEmail", some "2 seconds",
      .fn sampleRunErr, none⟩ sampleRunErr ⟨"Failed"⟩ emptyObject).2
      rfl rfl |>.1 rfl
  · exact (invokeSchedule_contract (some ⟨some "sendEmail", some "2 seconds",
      .fn sampleRunOk, none⟩) ⟨some "sendEmail", some "2 seconds",
      .fn sampleRunOk, none⟩ sampleRunOk ⟨"Failed"⟩ emptyObject).2
      rfl rfl |>.2.2 rfl
  · exact (invokeSchedule_contract (some ⟨none, none, .missing, none⟩)
      sampleDef1 sampleRunOk ⟨"Failed"⟩ emptyObject).1 rfl

/-- A handler that synchronously calls `done(null, {})` and then throws
`boom`. -/
def doubleRun : JsObject → PerformOutcome :=
  fun _ => .threw [.ok emptyObject] ⟨"boom"⟩

/-- A valid definition whose handler calls back and then throws. -/
def doubleDef : ScheduleDef :=
  ⟨some "sendEmail", some "2 seconds", .fn doubleRun, none⟩

/-- C10: `invokeSchedule` does not guarantee at-most-once completion: for the
valid definition whose handler synchronously calls `done(null, {})` and then
throws `boom`, `done` is invoked twice — the handler's own call followed by
the catch branch's `done(boom)`. -/
theorem invokeSchedule_double_callback :
    isValidSchedule (some doubleDef) = true ∧
    (invokeSchedule (some doubleDef)).doneCalls =
      [.ok emptyObject, .error ⟨"boom"⟩] ∧
    (invokeSchedule (some doubleDef)).doneCalls.length = 2 := by
  exact ⟨rfl, rfl, rfl⟩

/-- The reply callback's boolean `!!(ttl && ttl > 0)` coincides with the sign
test. -/
lemma pttl_bool (t : Int) : ((t != 0) && decide (0 < t)) = decide (0 < t) := by
  by_cases h : 0 < t
  · have h1 : (t != 0) = true := by
      simp only [bne_iff_ne, ne_eq]
      omega
    rw [h1, Bool.true_and]
  · simp [h]

/-- The reply callback on a successful `PTTL` answers the sign test. -/
lemma isAlreadyScheduledResult_ok (t : Int) :
    isAlreadyScheduledResult (.ok t) = .ok (decide (0 < t)) := by
  show Except.ok ((t != 0) && decide (0 < t)) = _
  rw [pttl_bool]

/-- `PTTL` on an absent key is `-2`. -/
lemma pttlAt_none (store : Store) (k : String) (now : Int)
    (hs : storeGet store k = none) : pttlAt store k now = -2 := by
  simp [pttlAt, hs]

/-- `PTTL` on a key without expiry is `-1`. -/
lemma pttlAt_noExpiry (store : Store) (k : String) (now : Int) (ks : KeyState)
    (hs : storeGet store k = some ks) (hx : ks.expireAt = none) :
    pttlAt store k now = -1 := by
  simp [pttlAt, hs, hx]

/-- `PTTL` on a key with an expiry is the remaining time, or `-2` once
elapsed. -/
lemma pttlAt_expiry (store : Store) (k : String) (now ex : Int)
    (ks : KeyState) (hs : storeGet store k = some ks)
    (hx : ks.expireAt = some ex) :
    pttlAt store k now = if 0 < ex - now then ex - now else -2 := by
  simp [pttlAt, hs, hx]

/-- C1: `isAlreadyScheduled` completes with `(null, true)` exactly when the
store's `PTTL` on `r:schedules:<name>` is strictly positive, i.e. exactly when
the key is present with an expiry still in the future; it completes with
`(null, false)` when the key is absent, has no expiry, or has already expired;
and it completes with the store error exactly when the `PTTL` command fails.
-/
theorem isAlreadyScheduled_ttl (store : Store) (now : Int) (name : String)
    (e : Error) :
    (isAlreadyScheduled store now name = .ok true ↔
      0 < pttlAt store (scheduleExpiryKeyFor name) now) ∧
    (isAlreadyScheduled store now name = .ok true ↔
      ∃ ks, storeGet store (scheduleExpiryKeyFor name) = some ks ∧
        ∃ ex, ks.expireAt = some ex ∧ now < ex) ∧
    (storeGet store (scheduleExpiryKeyFor name) = none →
      isAlreadyScheduled store now name = .ok false) ∧
    (∀ ks, storeGet store (scheduleExpiryKeyFor name) = some ks →
      ks.expireAt = none → isAlreadyScheduled store now name = .ok false) ∧
    (∀ ks ex, storeGet store (scheduleExpiryKeyFor name) = some ks →
      ks.expireAt = some ex → ex ≤ now →
      isAlreadyScheduled store now name = .ok false) ∧
    (isAlreadyScheduledResult (.error e) = .error e) ∧
    (∀ t : Int, isAlreadyScheduledResult (.ok t) ≠ .error e) := by
  have hiff : isAlreadyScheduled store now name = .ok true ↔
      0 < pttlAt store (scheduleExpiryKeyFor name) now := by
    unfold isAlreadyScheduled
    rw [isAlreadyScheduledResult_ok]
    simp
  refine ⟨hiff, ?_, ?_, ?_, ?_, rfl, ?_⟩
  · rw [hiff]
    cases hs : storeGet store (scheduleExpiryKeyFor name) with
    | none =>
      rw [pttlAt_none _ _ _ hs]
      simp [hs]
    | some ks =>
      cases hx : ks.expireAt with
      | none =>
        rw [pttlAt_noExpiry _ _ _ _ hs hx]
        simp [hs, hx]
      | some ex =>
        rw [pttlAt_expiry _ _ _ _ _ hs hx]
        by_cases hlt : 0 < ex - now
        · rw [if_pos hlt]
          constructor
          · intro _
            exact ⟨ks, rfl, ex, hx, by omega⟩
          · intro _
            exact hlt
        · rw [if_neg hlt]
          constructor
          · intro hc
            omega
          · rintro ⟨ks2, hks2, ex2, hex2, hnow⟩
            injection hks2 with hk
            subst hk
            rw [hx] at hex2
            injection hex2 with he
            subst he
            omega
  · intro hs
    unfold isAlreadyScheduled
    rw [isAlreadyScheduledResult_ok, pttlAt_none _ _ _ hs]
    decide
  · intro ks hs hx
    unfold isAlreadyScheduled
    rw [isAlreadyScheduledResult_ok, pttlAt_noExpiry _ _ _ _ hs hx]
    decide
  · intro ks ex hs hx hle
    unfold isAlreadyScheduled
    rw [isAlreadyScheduledResult_ok, pttlAt_expiry _ _ _ _ _ hs hx,
      if_neg (by omega)]
    decide
  · intro t
    rw [isAlreadyScheduledResult_ok]
    simp

/-- C1 witness: a key armed until instant `500` observed at instant `0` is
still scheduled; an empty store is not; a key with no expiry is not; an
elapsed expiry is not; a `PTTL` failure surfaces the store error. -/
theorem isAlreadyScheduled_ttl_witness :
    isAlreadyScheduled [("r:schedules:sendEmail", ⟨"v", some 500⟩)] 0
        "sendEmail" = .ok true ∧
      isAlreadyScheduled [] 0 "sendEmail" = .ok false ∧
      isAlreadyScheduled [("r:schedules:sendEmail", ⟨"v", none⟩)] 0
        "sendEmail" = .ok false ∧
      isAlreadyScheduled [("r:schedules:sendEmail", ⟨"v", some 500⟩)] 1000
        "sendEmail" = .ok false ∧
      isAlreadyScheduledResult (.error ⟨"boom"⟩) = .error ⟨"boom"⟩ := by
  refine ⟨?_, ?_, ?_, ?_, ?_⟩
  · exact (isAlreadyScheduled_ttl
      [("r:schedules:sendEmail", ⟨"v", some 500⟩)] 0 "sendEmail"
      ⟨"boom"⟩).1.mpr (by decide)
  · exact (isAlreadyScheduled_ttl [] 0 "sendEmail" ⟨"boom"⟩).2.2.1 rfl
  · exact (isAlreadyScheduled_ttl
      [("r:schedules:sendEmail", ⟨"v", none⟩)] 0 "sendEmail"
      ⟨"boom"⟩).2.2.2.1 ⟨"v", none⟩ (by decide) rfl
  · exact (isAlreadyScheduled_ttl
      [("r:schedules:sendEmail", ⟨"v", some 500⟩)] 1000 "sendEmail"
      ⟨"boom"⟩).2.2.2.2.1 ⟨"v", some 500⟩ 500 (by decide) rfl (by decide)
  · exact (isAlreadyScheduled_ttl [] 0 "sendEmail" ⟨"boom"⟩).2.2.2.2.2.1

/-- C2: for a definition whose interval the Time Calculator resolves (from
`lastRunAt`, defaulting to `now`), `scheduleNextRun` issues
`SET <expiryKey> <expiryKey> PX (nextRunAt - now) NX` on the schedule's expiry
key, completes with `(null, {nextRunAt})` when the store command does not
error, and completes with the store error when it does. -/
theorem scheduleNextRun_conditional_set (name interval : String)
    (lastRunAt : Option Int) (now t : Int) (e : Error)
    (h : nextRunTimeFor interval (lastRunAt.getD now) now = some t) :
    scheduleNextRun name interval lastRunAt now none =
      some
        { command :=
            { key := scheduleExpiryKeyFor name
              value := scheduleExpiryKeyFor name
              px := t - now
              nx := true }
          result := .ok t } ∧
    scheduleNextRun name interval lastRunAt now (some e) =
      some
        { command :=
            { key := scheduleExpiryKeyFor name
              value := scheduleExpiryKeyFor name
              px := t - now
              nx := true }
          result := .error e } := by
  unfold scheduleNextRun
  rw [h]
  exact ⟨rfl, rfl⟩

/-- C2 witness: scheduling `sendEmail` every `1 second` from
`lastRunAt = now = 0` issues `SET r:schedules:sendEmail ... PX 1000 NX` and
reports `nextRunAt = 1000`; with a failing store it reports the failure. -/
theorem scheduleNextRun_conditional_set_witness :
    scheduleNextRun "sendEmail" "1 second" (some 0) 0 none =
      some
        { command :=
            { key := "r:schedules:sendEmail"
              value := "r:schedules:sendEmail"
              px := 1000
              nx := true }
          result := .ok 1000 } ∧
    scheduleNextRun "sendEmail" "1 second" (some 0) 0 (some ⟨"boom"⟩) =
      some
        { command :=
            { key := "r:schedules:sendEmail"
              value := "r:schedules:sendEmail"
              px := 1000
              nx := true }
          result := .error ⟨"boom"⟩ } := by
  have h := scheduleNextRun_conditional_set "sendEmail" "1 second" (some 0) 0
    1000 ⟨"boom"⟩ (by decide)
  exact ⟨h.1, h.2⟩

/-- Closed form of `nextHumanRunTimeFor` once the phrase parses to a non-zero
duration: exact sum when still in the future, otherwise re-based at `now`. -/
lemma nextHumanRunTimeFor_eq (p : String) (d T now : Int)
    (hp : humanInterval p = some d) (hd : d ≠ 0) :
    nextHumanRunTimeFor p T now =
      if T + d - now ≤ 0 then some (now + d) else some (T + d) := by
  unfold nextHumanRunTimeFor
  rw [hp]
  simp [hd]

/-- C4 counterexample: at last-run instant `T = 0` observed at call instant
`2000`, `nextHumanRunTimeFor("1 second", 0)` returns `3000`, not
`T + 1000 = 1000` (and likewise `"5 minutes"` at instant `600000` returns
`900000`, not `300000`): the ensure-strictly-future correction re-bases stale
instants at `now`, so the advertised exact equality fails. -/
theorem nextHumanRunTimeFor_not_exact :
    nextHumanRunTimeFor "1 second" 0 2000 = some 3000 ∧
      some (3000 : Int) ≠ some ((0 : Int) + 1000) ∧
      nextHumanRunTimeFor "5 minutes" 0 600000 = some 900000 ∧
      some (900000 : Int) ≠ some ((0 : Int) + 300000) := by
  refine ⟨by decide, by decide, by decide, by decide⟩

/-- C4 (amended): `nextHumanRunTimeFor("1 second", T)` observed at instant
`now` equals `T + 1000` exactly whenever `T + 1000` is still strictly in the
future, and `now + 1000` otherwise; likewise `"5 minutes"` with `300000`. -/
theorem nextHumanRunTimeFor_exact_when_future (T now : Int) :
    (now < T + 1000 →
      nextHumanRunTimeFor "1 second" T now = some (T + 1000)) ∧
    (T + 1000 ≤ now →
      nextHumanRunTimeFor "1 second" T now = some (now + 1000)) ∧
    (now < T + 300000 →
      nextHumanRunTimeFor "5 minutes" T now = some (T + 300000)) ∧
    (T + 300000 ≤ now →
      nextHumanRunTimeFor "5 minutes" T now = some (now + 300000)) := by
  have h1 := nextHumanRunTimeFor_eq "1 second" 1000 T now (by decide)
    (by decide)
  have h5 := nextHumanRunTimeFor_eq "5 minutes" 300000 T now (by decide)
    (by decide)
  refine ⟨?_, ?_, ?_, ?_⟩
  · intro h
    rw [h1, if_neg (by omega)]
  · intro h
    rw [h1, if_pos (by omega)]
  · intro h
    rw [h5, if_neg (by omega)]
  · intro h
    rw [h5, if_pos (by omega)]

/-- C4 (amended) witness: fresh last-run instants give the exact sums, stale
ones are re-based at `now`. -/
theorem nextHumanRunTimeFor_exact_when_future_witness :
    nextHumanRunTimeFor "1 second" 0 0 = some 1000 ∧
      nextHumanRunTimeFor "1 second" 0 2000 = some 3000 ∧
      nextHumanRunTimeFor "5 minutes" 0 0 = some 300000 ∧
      nextHumanRunTimeFor "5 minutes" 0 600000 = some 900000 := by
  refine ⟨?_, ?_, ?_, ?_⟩
  · exact (nextHumanRunTimeFor_exact_when_future 0 0).1 (by decide)
  · exact (nextHumanRunTimeFor_exact_when_future 0 2000).2.1 (by decide)
  · exact (nextHumanRunTimeFor_exact_when_future 0 0).2.2.1 (by decide)
  · exact (nextHumanRunTimeFor_exact_when_future 0 600000).2.2.2 (by decide)

/-- C5: `nextRunTimeFor` returns the cron-based next run time whenever the
cron grammar resolves the pattern (cron takes priority), falls back to the
human-interval computation when the cron attempt fails, and yields an absent
result when both grammars fail. -/
theorem nextRunTimeFor_dispatch (p : String) (T now : Int) :
    (∀ t, nextCronRunTimeFor p T now = some t →
      nextRunTimeFor p T now = some t) ∧
    (nextCronRunTimeFor p T now = none →
      nextRunTimeFor p T now = nextHumanRunTimeFor p T now) ∧
    (nextCronRunTimeFor p T now = none →
      nextHumanRunTimeFor p T now = none →
      nextRunTimeFor p T now = none) := by
  refine ⟨?_, ?_, ?_⟩
  · intro t h
    unfold nextRunTimeFor
    rw [h]
  · intro h
    unfold nextRunTimeFor
    rw [h]
  · intro h hh
    unfold nextRunTimeFor
    rw [h]
    exact hh

/-- C5 witness: `* * * * * *` resolves through cron to the next second
boundary, `1 second` fails cron and resolves through the human grammar, and
`garbage` fails both. -/
theorem nextRunTimeFor_dispatch_witness :
    nextRunTimeFor "* * * * * *" 0 0 = some 1000 ∧
      nextRunTimeFor "1 second" 0 0 = some 1000 ∧
      nextRunTimeFor "garbage" 0 0 = none := by
  refine ⟨?_, ?_, ?_⟩
  · exact (nextRunTimeFor_dispatch "* * * * * *" 0 0).1 1000 (by decide)
  · have h := (nextRunTimeFor_dispatch "1 second" 0 0).2.1 (by decide)
    rw [h]
    decide
  · exact (nextRunTimeFor_dispatch "garbage" 0 0).2.2 (by decide) (by decide)

/-- C8 counterexample: with both singletons present (`uuid 1` and `uuid 2`),
`quit` returns `scheduler`/`listener` properties that are already reset to
`null` — not the prior handles. -/
theorem quit_not_prior_handles :
    quit ⟨some ⟨1⟩, some ⟨2⟩⟩ =
      { closed := [⟨1⟩, ⟨2⟩]
        state := ⟨none, none⟩
        returnedScheduler := none
        returnedListener := none } ∧
    (quit ⟨some ⟨1⟩, some ⟨2⟩⟩).returnedScheduler ≠ some ⟨1⟩ ∧
    (quit ⟨some ⟨1⟩, some ⟨2⟩⟩).returnedListener ≠ some ⟨2⟩ := by
  decide

/-- C8 (amended): `quit` closes whichever of the scheduler-role and
listener-role clients exist, resets both singletons to unset, and returns the
reset (unset) handles — not the prior ones — in the `{scheduler, listener}`
properties of its result. -/
theorem quit_closes_and_resets (st : ClientsState) :
    (quit st).closed = [st.scheduler, st.listener].filterMap id ∧
    (quit st).state = ⟨none, none⟩ ∧
    (quit st).returnedScheduler = none ∧
    (quit st).returnedListener = none :=
  ⟨rfl, rfl, rfl, rfl⟩

/-- C9 counterexample: with the singleton holding client `uuid 1`,
`createScheduler({recreate: true})` creates and returns a new client
(`uuid 2`) but leaves the old client as the process-wide singleton
(`scheduler = scheduler || redisClient`): the new client does not replace it.
-/
theorem createScheduler_recreate_not_replacing :
    createScheduler (some ⟨1⟩) true ⟨2⟩ =
      { created := true, returned := ⟨2⟩, singleton := some ⟨1⟩ } ∧
    (createScheduler (some ⟨1⟩) true ⟨2⟩).singleton ≠
      some (createScheduler (some ⟨1⟩) true ⟨2⟩).returned := by
  decide

/-- C9 (amended): both clients are lazy process-wide singletons — a first call
creates and installs the client, later calls without `recreate` return the
same client unchanged — while `recreate: true` creates and returns a fresh
client but keeps an existing singleton in place (the fresh client becomes the
singleton only when none existed). -/
theorem createClients_singleton (c fresh : Client) (b : Bool) :
    createScheduler none b fresh =
      { created := true, returned := fresh, singleton := some fresh } ∧
    createScheduler (some c) false fresh =
      { created := false, returned := c, singleton := some c } ∧
    createScheduler (some c) true fresh =
      { created := true, returned := fresh, singleton := some c } ∧
    createListener none b fresh =
      { created := true, returned := fresh, singleton := some fresh } ∧
    createListener (some c) false fresh =
      { created := false, returned := c, singleton := some c } ∧
    createListener (some c) true fresh =
      { created := true, returned := fresh, singleton := some c } := by
  refine ⟨?_, rfl, rfl, ?_, rfl, rfl⟩ <;>
    simp [createScheduler, createListener]

end Scheduler
